import Mathlib

/-
  Verification development for the TopoModelX tutorial notebooks.

  The notebooks are embedded shallowly: float tensors are modelled as lists of
  exact rationals (NaN is modelled as `none : Option ℚ` where it can arise),
  the library-provided message-passing layers (HSNLayer, CCXNLayer,
  TemplateLayer, which are not part of the provided source) are abstracted as
  arbitrary functions of the feature matrices and structure matrices, and the
  exact-real sigmoid is abstracted as a function parameter `σ` constrained by
  the order properties actually used.
-/

namespace TopoModelX

/-- Feature vectors: lists of exact rationals (exact-arithmetic model of float tensors). -/
abbrev Vec := List ℚ

/-- A matrix is a list of rows. -/
abbrev Mat := List Vec

/-- Dot product of two vectors. -/
def dot (a b : Vec) : ℚ := (List.zipWith (fun x y => x * y) a b).sum

/-- A linear layer `torch.nn.Linear`: weight rows and bias entries. -/
structure LinMap where
  weights : Mat
  bias : Vec

/-- Apply a linear layer to a vector. -/
def linApply (L : LinMap) (x : Vec) : Vec :=
  List.zipWith (fun w b => dot w x + b) L.weights L.bias

/-- `torch.nn.Linear(channels, 2)` as used by the HSN model: two output rows. -/
structure Lin2 where
  w0 : Vec
  w1 : Vec
  b0 : ℚ
  b1 : ℚ

/-- Apply the two-output linear layer of the HSN model to a feature row. -/
def lin2Apply (L : Lin2) (x : Vec) : Vec :=
  [dot L.w0 x + L.b0, dot L.w1 x + L.b1]

/-- `np.mean` over the list of recorded per-sample scalar losses. -/
def npMean (l : List ℚ) : ℚ := l.sum / l.length

/-- `.float().mean().item()` over a boolean tensor: fraction of `true` entries. -/
def boolMean (l : List Bool) : ℚ := ((l.filter (fun b => b)).length : ℚ) / (l.length : ℚ)

/-- Modelled from the spec: `sklearn.model_selection.train_test_split` with
`shuffle=False` is library code not under `src/`; per the spec the ordered
samples are "partitioned without shuffling into a training prefix and a test
suffix, at a fixed fraction", the test size being the ceiling of
`testSize * n` so that 20 samples at fraction 0.2 give a 16/4 split. -/
def train_test_split {α : Type} (l : List α) (testSize : ℚ) : List α × List α :=
  let nTest : ℕ := ((testSize * (l.length : ℚ)).ceil).toNat
  (l.take (l.length - nTest), l.drop (l.length - nTest))

/-- The HSN notebook's manual label split: `y_test = y_true[:4]`. -/
def hsnSplitTest {α : Type} (l : List α) : List α := l.take 4

/-- The HSN notebook's manual label split: `y_train = y_true[-30:]`. -/
def hsnSplitTrain {α : Type} (l : List α) : List α := l.drop (l.length - 30)

/-- The template notebook's training-pass correctness check
`(y_hat > threshold_probability_positive_class) == y.bool()` with threshold 1/2. -/
def templateTrainCorrect (yhat y : ℚ) : Bool := (decide (yhat > 1/2)) == (decide (y ≠ 0))

/-- The template notebook's evaluation-pass correctness check (the identical
expression in the test-interval block). -/
def templateTestCorrect (yhat y : ℚ) : Bool := (decide (yhat > 1/2)) == (decide (y ≠ 0))

/-- The HSN notebook's evaluation-pass thresholding `.ge(0.5).float()` on one entry. -/
def hsnGeDecision (v : ℚ) : ℚ := if 1/2 ≤ v then 1 else 0

/-- The HSN notebook's training-pass thresholding
`torch.where(y_hat > 0.5, 1, 0)` on one entry. -/
def hsnGtDecision (v : ℚ) : ℚ := if v > 1/2 then 1 else 0

/-- Elementwise equality of two rows followed by `.all(dim=1)`. -/
def rowEqAll (a b : Vec) : Bool := (List.zipWith (fun x y => decide (x = y)) a b).all (fun t => t)

/-- `y_pred = torch.where(y_hat > 0.5, 1, 0)` applied to the whole output matrix. -/
def hsnYPred (yhat : Mat) : Mat := yhat.map (fun r => r.map hsnGtDecision)

/-- Training accuracy of the HSN notebook:
`(y_pred == y_hat).all(dim=1).float().mean().item()` — note the comparison is
against `y_hat`, not against the labels. -/
def hsnTrainAccOf (yhat : Mat) : ℚ := boolMean (List.zipWith rowEqAll (hsnYPred yhat) yhat)

/-- The binary labels `y` hard-coded in the HSN notebook. -/
def hsnY : Vec :=
  [1, 1, 1, 1, 1, 1, 1, 1, 1, 0, 1, 1, 1, 1, 0, 0, 1,
   1, 0, 1, 0, 1, 0, 0, 0, 0, 0, 0, 0, 0, 0, 0, 0, 0]

/-- `y_true` one-hot rows: column 0 is `y`, column 1 is `1 - y`. -/
def hsnYTrue : Mat := hsnY.map (fun v => [v, 1 - v])

/-- `y_test = y_true[:4]`. -/
def hsnYTest : Mat := hsnSplitTest hsnYTrue

/-- One HSN layer maps `x_0` with the two structure matrices; the layer
implementation lives in the library package, so it is abstracted as an
arbitrary function. -/
abbrev HSNLayerFun := Mat → Mat → Mat → Mat

/-- The HSN model: stacked layers, a `Linear(channels, 2)` head, and the
training-mode flag set by `model.train()`. -/
structure HSNModel where
  layers : List HSNLayerFun
  lin : Lin2
  training : Bool

/-- `for layer in self.layers: x_0 = layer(x_0, incidence_1, adjacency_0)`. -/
def hsnApplyLayers : List HSNLayerFun → Mat → Mat → Mat → Mat
  | [], x0, _, _ => x0
  | l :: rest, x0, inc, adj => hsnApplyLayers rest (l x0 inc adj) inc adj

/-- `HSN.forward`: stacked layers then `torch.sigmoid(self.linear(x_0))`, with
the exact-real sigmoid abstracted as `σ`. -/
def hsnForward (σ : ℚ → ℚ) (m : HSNModel) (x0 inc adj : Mat) : Mat :=
  (hsnApplyLayers m.layers x0 inc adj).map (fun r => (lin2Apply m.lin r).map σ)

/-- `y_pred_test = torch.sigmoid(y_hat_test).ge(0.5).float()`: a second
application of the sigmoid followed by the `≥ 0.5` thresholding. -/
def hsnYPredTest (σ : ℚ → ℚ) (yhat : Mat) : Mat :=
  yhat.map (fun r => r.map (fun v => hsnGeDecision (σ v)))

/-- Test accuracy of the HSN notebook:
`torch.eq(y_pred_test[: len(y_test)], y_test).all(dim=1).float().mean().item()`. -/
def hsnTestAcc (σ : ℚ → ℚ) (yhat : Mat) : ℚ :=
  boolMean (List.zipWith rowEqAll ((hsnYPredTest σ yhat).take hsnYTest.length) hsnYTest)

/-- Row-level form of the HSN training-pass check: the thresholded row is
compared with the raw output row itself. -/
def hsnTrainRowCheck (r : Vec) : Bool := rowEqAll (r.map hsnGtDecision) r

/-- Row-level form of the HSN evaluation-pass check against a label row. -/
def hsnTestRowCheck (σ : ℚ → ℚ) (r lbl : Vec) : Bool :=
  rowEqAll (r.map (fun v => hsnGeDecision (σ v))) lbl

/-- Follows the spec's words: the decided (thresholded) prediction row is
compared with the label row. -/
def specDecidedMatchRow (r lbl : Vec) : Bool := rowEqAll (r.map hsnGtDecision) lbl

/-- One CCXN layer maps `(x_0, x_1)` with the two structure matrices to the
three per-rank outputs; the implementation lives in the library package and is
abstracted as an arbitrary function. -/
abbrev CCXNLayerFun := Mat → Mat → Mat → Mat → Mat × Mat × Mat

/-- The CCXN model: stacked layers, three per-rank linear heads with
`num_classes` outputs, and the training-mode flag set by `model.train()`. -/
structure CCXNModel where
  layers : List CCXNLayerFun
  lin0 : LinMap
  lin1 : LinMap
  lin2 : LinMap
  numClasses : ℕ
  training : Bool

/-- `for layer in self.layers: x_0, x_1, x_2 = layer(x_0, x_1, n00, n12)`.
The initial `x2` argument is dead for a nonempty layer list (in Python `x_2`
is unbound before the first iteration). -/
def ccxnLayersOut : List CCXNLayerFun → Mat → Mat → Mat → Mat → Mat → Mat × Mat × Mat
  | [], x0, x1, x2, _, _ => (x0, x1, x2)
  | l :: rest, x0, x1, _, adj, inc =>
      match l x0 x1 adj inc with
      | (y0, y1, y2) => ccxnLayersOut rest y0 y1 y2 adj inc

/-- `torch.nanmean(x, dim=0)` on a NaN-free tensor with `c` columns:
the mean over an empty dimension is NaN, modelled as `none`. -/
def nanmeanCols (c : ℕ) (rows : Mat) : List (Option ℚ) :=
  if rows.length = 0 then List.replicate c none
  else (List.range c).map (fun j => some ((rows.map (fun r => r.getD j 0)).sum / (rows.length : ℚ)))

/-- `t[torch.isnan(t)] = 0`: NaN entries are replaced by zero, the rest kept. -/
def nanToZero (v : List (Option ℚ)) : List (Option ℚ) :=
  v.map (fun o => match o with | none => some 0 | some q => some q)

/-- Addition on possibly-NaN scalars: NaN propagates. -/
def optAdd (a b : Option ℚ) : Option ℚ :=
  match a, b with
  | some x, some y => some (x + y)
  | _, _ => none

/-- Entrywise addition of possibly-NaN vectors. -/
def optVecAdd (u v : List (Option ℚ)) : List (Option ℚ) := List.zipWith optAdd u v

/-- Pooling of one rank in `CCXN.forward`: the linear head on each row, then
`nanmean` over dim 0, then the NaN-to-zero substitution. -/
def ccxnPool (c : ℕ) (L : LinMap) (rows : Mat) : List (Option ℚ) :=
  nanToZero (nanmeanCols c (rows.map (linApply L)))

/-- `CCXN.forward`: layers, per-rank linear heads, per-rank nanmean pooling
with NaN-to-zero substitution, and the sum of the three pooled vectors. -/
def ccxnForward (m : CCXNModel) (x0 x1 adj inc2t : Mat) : List (Option ℚ) :=
  optVecAdd (ccxnPool m.numClasses m.lin2 (ccxnLayersOut m.layers x0 x1 [] adj inc2t).2.2)
    (optVecAdd (ccxnPool m.numClasses m.lin1 (ccxnLayersOut m.layers x0 x1 [] adj inc2t).2.1)
      (ccxnPool m.numClasses m.lin0 (ccxnLayersOut m.layers x0 x1 [] adj inc2t).1))

/-- One template layer maps `x_1` with the incidence matrix; the
implementation lives in the library package and is abstracted. -/
abbrev TemplateLayerFun := Mat → Mat → Mat

/-- The template hypergraph model: stacked layers, a `Linear(channels_edge, 1)`
head, and the training-mode flag. -/
structure TemplateModel where
  layers : List TemplateLayerFun
  linear : LinMap
  training : Bool

/-- `for layer in self.layers: x_1 = layer(x_1, incidence_1)`. -/
def templateApplyLayers : List TemplateLayerFun → Mat → Mat → Mat
  | [], x1, _ => x1
  | l :: rest, x1, inc => templateApplyLayers rest (l x1 inc) inc

/-- Column-wise maximum of a matrix (junk value 0 on an empty matrix, where
torch would raise). -/
def colMax (rows : Mat) (j : ℕ) : ℚ :=
  match rows with
  | [] => 0
  | r :: rest => rest.foldl (fun acc rr => max acc (rr.getD j 0)) (r.getD j 0)

/-- Number of columns of a matrix, read off the first row. -/
def rowWidth (rows : Mat) : ℕ := (rows.headD []).length

/-- `torch.max(x_1, dim=0)[0]`: column-wise max pooling. -/
def maxPool (rows : Mat) : Vec := (List.range (rowWidth rows)).map (colMax rows)

/-- `TemplateNN.forward`: layers, max pooling, then
`torch.sigmoid(self.linear(pooled_x))[0]` with the sigmoid abstracted as `σ`. -/
def templateForward (σ : ℚ → ℚ) (m : TemplateModel) (x1 inc : Mat) : ℚ :=
  ((linApply m.linear (maxPool (templateApplyLayers m.layers x1 inc))).map σ).headD 0

/-- One notebook training loop, abstracted over the parameter type `P` and the
sample type `S`: `step` is backward plus optimizer step, `lossOf` the recorded
scalar loss, and `correctOf` the correctness check, all evaluated at the
parameters current when the sample is processed. -/
structure TrainAlg (P S : Type) where
  step : P → S → P
  lossOf : P → S → ℚ
  correctOf : P → S → Bool

/-- One training epoch over the ordered samples: record loss and correctness
at the current parameters, then apply the optimizer step, sample by sample.
Returns the final parameters, the recorded losses, the correct count and the
sample count. -/
def runEpoch {P S : Type} (A : TrainAlg P S) (p : P) : List S → P × List ℚ × ℕ × ℕ
  | [] => (p, [], 0, 0)
  | s :: rest =>
      let out := runEpoch A (A.step p s) rest
      (out.1, A.lossOf p s :: out.2.1,
       (if A.correctOf p s then 1 else 0) + out.2.2.1, 1 + out.2.2.2)

/-- Evaluation-pass counters over the test samples in fixed order: the correct
count and the sample count; the parameters are read, never written. -/
def evalCounts {P S : Type} (A : TrainAlg P S) (p : P) : List S → ℕ × ℕ
  | [] => (0, 0)
  | s :: rest =>
      let r := evalCounts A p rest
      ((if A.correctOf p s then 1 else 0) + r.1, 1 + r.2)

/-- Test accuracy reported by the evaluation pass: correct / total. -/
def evalAcc {P S : Type} (A : TrainAlg P S) (p : P) (test : List S) : ℚ :=
  ((evalCounts A p test).1 : ℚ) / ((evalCounts A p test).2 : ℚ)

/-- One per-epoch metric line: epoch index, mean loss, training accuracy, and
the test accuracy when the evaluation pass ran. -/
structure EpochMetric where
  epoch : ℕ
  meanLoss : ℚ
  trainAcc : ℚ
  testAcc : Option ℚ
  deriving DecidableEq

/-- The loop body from epoch `e` for `k` more epochs: train one epoch, emit
the metric line, evaluate when `e % tI == 0`, recurse. -/
def runFrom {P S : Type} (A : TrainAlg P S) (trainS testS : List S) (tI : ℕ) :
    P → ℕ → ℕ → P × List EpochMetric
  | p, _, 0 => (p, [])
  | p, e, Nat.succ k =>
      let r := runEpoch A p trainS
      let metric : EpochMetric :=
        { epoch := e, meanLoss := npMean r.2.1,
          trainAcc := (r.2.2.1 : ℚ) / (r.2.2.2 : ℚ),
          testAcc := if e % tI = 0 then some (evalAcc A r.1 testS) else none }
      let rest := runFrom A trainS testS tI r.1 (e + 1) k
      (rest.1, metric :: rest.2)

/-- `for epoch_i in range(1, num_epochs + 1)` with periodic evaluation. -/
def runLoop {P S : Type} (A : TrainAlg P S) (p : P) (trainS testS : List S)
    (numEpochs tI : ℕ) : P × List EpochMetric :=
  runFrom A trainS testS tI p 1 numEpochs

/-- The per-sample losses recorded during one epoch, defined independently of
the loop: the loss of each sample is taken at the parameters reached after the
optimizer steps of the preceding samples. -/
def lossTrace {P S : Type} (A : TrainAlg P S) (p : P) : List S → List ℚ
  | [] => []
  | s :: rest => A.lossOf p s :: lossTrace A (A.step p s) rest

/-- The number of correct predictions during one epoch, defined independently
of the loop. -/
def correctTrace {P S : Type} (A : TrainAlg P S) (p : P) : List S → ℕ
  | [] => 0
  | s :: rest => (if A.correctOf p s then 1 else 0) + correctTrace A (A.step p s) rest

/-- Parameters after `k` full training epochs with no evaluation interleaved. -/
def paramsAfter {P S : Type} (A : TrainAlg P S) (p : P) (trainS : List S) : ℕ → P
  | 0 => p
  | k + 1 => (runEpoch A (paramsAfter A p trainS k) trainS).1

/-- A computable squashing function with the order properties of the
exact-real sigmoid that the proofs use: values strictly between 0 and 1, and
above 1/2 exactly on the positives. Used to instantiate the abstract sigmoid
in concrete witnesses. -/
def squash (x : ℚ) : ℚ := 1/2 + x / (2 * (1 + |x|))

/-- A concrete training-algorithm instance used to exercise the loop theorems
on concrete inputs. -/
def demoAlg : TrainAlg ℚ ℚ where
  step := fun p s => p + s
  lossOf := fun p s => p * s
  correctOf := fun p s => decide (s ≤ p)

/-- A concrete CCXN layer whose rank-2 output is empty, as happens for a cell
complex with zero faces. -/
def demoLayer : CCXNLayerFun := fun x0 x1 _ _ => (x0, x1, [])

/-- A concrete CCXN model instance built on `demoLayer`. -/
def demoCCXN : CCXNModel where
  layers := [demoLayer]
  lin0 := ⟨[[1]], [0]⟩
  lin1 := ⟨[[1]], [0]⟩
  lin2 := ⟨[[1]], [0]⟩
  numClasses := 1
  training := true

/-- A concrete HSN model instance with no message-passing layers. -/
def demoHSN : HSNModel where
  layers := []
  lin := ⟨[1], [0], 0, 0⟩
  training := true

/-- Concrete node features with four rows. -/
def demoX0 : Mat := [[1], [2], [3], [4]]

theorem squash_abs_lt (x : ℚ) : |x / (2 * (1 + |x|))| < 1/2 := by
  have hd : (0:ℚ) < 2 * (1 + |x|) := by positivity
  rw [abs_div, abs_of_pos hd, div_lt_iff₀ hd]
  nlinarith [abs_nonneg x]

theorem squash_pos (x : ℚ) : 0 < squash x := by
  have h := (abs_lt.mp (squash_abs_lt x)).1
  unfold squash
  linarith

theorem squash_lt_one (x : ℚ) : squash x < 1 := by
  have h := (abs_lt.mp (squash_abs_lt x)).2
  unfold squash
  linarith

theorem squash_gt_half (x : ℚ) (h : 0 < x) : 1/2 < squash x := by
  have h2 : 0 < x / (2 * (1 + |x|)) := by positivity
  unfold squash
  linarith

theorem nanmeanCols_length (c : ℕ) (rows : Mat) : (nanmeanCols c rows).length = c := by
  unfold nanmeanCols
  split <;> simp

theorem nanToZero_length (v : List (Option ℚ)) : (nanToZero v).length = v.length := by
  simp [nanToZero]

theorem nanToZero_isSome (v : List (Option ℚ)) : ∀ o ∈ nanToZero v, o.isSome := by
  intro o ho
  rw [nanToZero, List.mem_map] at ho
  obtain ⟨a, -, ha⟩ := ho
  cases a <;> simp [← ha]

theorem ccxnPool_nil (c : ℕ) (L : LinMap) : ccxnPool c L [] = List.replicate c (some 0) := by
  unfold ccxnPool nanmeanCols nanToZero
  simp

theorem ccxnPool_length (c : ℕ) (L : LinMap) (rows : Mat) : (ccxnPool c L rows).length = c := by
  unfold ccxnPool
  rw [nanToZero_length, nanmeanCols_length]

theorem ccxnPool_isSome (c : ℕ) (L : LinMap) (rows : Mat) :
    ∀ o ∈ ccxnPool c L rows, o.isSome :=
  nanToZero_isSome _

theorem optVecAdd_length (u v : List (Option ℚ)) :
    (optVecAdd u v).length = min u.length v.length := by
  simp [optVecAdd]

theorem optVecAdd_isSome (u v : List (Option ℚ)) (hu : ∀ o ∈ u, o.isSome)
    (hv : ∀ o ∈ v, o.isSome) : ∀ o ∈ optVecAdd u v, o.isSome := by
  induction u generalizing v with
  | nil => simp [optVecAdd]
  | cons a t ih =>
      cases v with
      | nil => simp [optVecAdd]
      | cons b s =>
          intro o ho
          rw [optVecAdd, List.zipWith_cons_cons, List.mem_cons] at ho
          rcases ho with h | h
          · obtain ⟨x, hx⟩ := Option.isSome_iff_exists.mp (hu a (by simp))
            obtain ⟨y, hy⟩ := Option.isSome_iff_exists.mp (hv b (by simp))
            subst h
            simp [optAdd, hx, hy]
          · exact ih s (fun o ho => hu o (by simp [ho])) (fun o ho => hv o (by simp [ho])) o h

theorem optVecAdd_replicate_zero (c : ℕ) (w : List (Option ℚ)) (hlen : w.length = c)
    (hsome : ∀ o ∈ w, o.isSome) : optVecAdd (List.replicate c (some 0)) w = w := by
  induction w generalizing c with
  | nil => subst hlen; rfl
  | cons a t ih =>
      subst hlen
      obtain ⟨q, hq⟩ := Option.isSome_iff_exists.mp (hsome a (by simp))
      subst hq
      rw [List.length_cons, List.replicate_succ, optVecAdd, List.zipWith_cons_cons]
      refine congrArg₂ _ (by simp [optAdd]) ?_
      exact ih t.length rfl (fun o ho => hsome o (by simp [ho]))

/-- C1 (code evaluated at the failing input): the HSN notebook's training-pass
correctness check compares the thresholded prediction row with the raw output
row `y_hat` instead of the label row. At the output row `[3/4, 1/4]` with
label row `[1, 0]` the code's check is `false` (so the running counter is not
incremented and the reported training accuracy is `0`), while the spec's
decided-prediction-versus-label comparison is `true`. -/
theorem hsn_train_check_ignores_label :
    hsnTrainRowCheck [3/4, 1/4] = false
    ∧ specDecidedMatchRow [3/4, 1/4] [1, 0] = true
    ∧ hsnTrainAccOf [[3/4, 1/4]] = 0 := by
  refine ⟨?_, ?_, ?_⟩
  · norm_num [hsnTrainRowCheck, rowEqAll, hsnGtDecision]
  · norm_num [specDecidedMatchRow, rowEqAll, hsnGtDecision]
  · norm_num [hsnTrainAccOf, hsnYPred, boolMean, rowEqAll, hsnGtDecision]

/-- C2 (counterexample): in the HSN notebook the manual split takes the test
set from the prefix (`y_true[:4]`) and the training set from the suffix
(`y_true[-30:]`), so concatenating train first and test second does not
reproduce the original 34-element ordered sequence. -/
theorem hsn_split_breaks_prefix_suffix_order :
    hsnSplitTrain (List.range 34) ++ hsnSplitTest (List.range 34) ≠ List.range 34 := by
  decide

/-- C2 (amended): the `train_test_split(..., shuffle=False)` calls yield a
training prefix and a test suffix whose concatenation train-then-test
reproduces the original ordered sequence for every split fraction in (0,1),
and 20 samples at fraction 0.2 give train indices [0..15] and test indices
[16..19]; the HSN notebook's manual split instead takes the test set first, so
there the concatenation test-then-train reproduces the original 34-element
sequence. -/
theorem split_concat_and_hsn_order :
    (∀ (l : List ℕ) (ts : ℚ), 0 < ts → ts < 1 →
        (train_test_split l ts).1 ++ (train_test_split l ts).2 = l)
    ∧ train_test_split (List.range 20) (1/5) = (List.range 16, [16, 17, 18, 19])
    ∧ ∀ (l : List ℕ), l.length = 34 → hsnSplitTest l ++ hsnSplitTrain l = l := by
  refine ⟨?_, ?_, ?_⟩
  · intro l ts _ _
    simp only [train_test_split]
    exact List.take_append_drop _ _
  · have h : (((1:ℚ)/5 * ((List.range 20).length : ℚ)).ceil.toNat) = 4 := by
      norm_num [Rat.ceil]; decide
    simp only [train_test_split, h]
    decide
  · intro l hl
    simp only [hsnSplitTest, hsnSplitTrain, hl]
    norm_num

/-- C2 (witness): the amended statement at concrete inputs. -/
theorem split_concat_witness :
    (train_test_split [5, 6, 7] (1/2 : ℚ)).1 ++ (train_test_split [5, 6, 7] (1/2 : ℚ)).2 = [5, 6, 7]
    ∧ hsnSplitTest (List.range 34) ++ hsnSplitTrain (List.range 34) = List.range 34 :=
  ⟨split_concat_and_hsn_order.1 [5, 6, 7] (1/2) (by norm_num) (by norm_num),
   split_concat_and_hsn_order.2.2 (List.range 34) (by decide)⟩

/-- C3 (counterexample): the HSN notebook's evaluation pass thresholds with
`.ge(0.5)`, so a compared value of exactly 0.5 is classified as the positive
class there, while the strict `>` rule of the claim classifies it negative. -/
theorem hsn_eval_threshold_half_positive :
    hsnGeDecision (1/2) = 1 ∧ hsnGtDecision (1/2) = 0 := by
  constructor
  · norm_num [hsnGeDecision]
  · norm_num [hsnGtDecision]

/-- C3 (amended): in the template hypergraph notebook, where
`threshold_probability_positive_class = 0.5`, both the training and the
evaluation passes use the strict `>` comparison (the two checks are the same
function of prediction and label), so a prediction of exactly 0.5 is
classified as the negative class in both passes: at prediction 1/2 the check
succeeds exactly for label 0. The HSN notebook's evaluation pass instead uses
`.ge(0.5)`, classifying a compared value of exactly 0.5 as positive. -/
theorem template_threshold_strict :
    (∀ v y : ℚ, templateTrainCorrect v y = templateTestCorrect v y)
    ∧ templateTrainCorrect (1/2) 0 = true
    ∧ templateTrainCorrect (1/2) 1 = false
    ∧ templateTestCorrect (1/2) 0 = true
    ∧ templateTestCorrect (1/2) 1 = false
    ∧ hsnGeDecision (1/2) = 1 := by
  refine ⟨fun v y => rfl, ?_, ?_, ?_, ?_, ?_⟩ <;>
    norm_num [templateTrainCorrect, templateTestCorrect, hsnGeDecision]

/-- C9: running the loop with `num_epochs = 0` executes no epoch iteration:
it emits no metric line, runs no evaluation pass, and returns the parameters
unchanged, for every algorithm, sample lists and test interval. -/
theorem zero_epochs_no_output_params_unchanged {P S : Type} (A : TrainAlg P S)
    (p : P) (trainS testS : List S) (tI : ℕ) :
    (runLoop A p trainS testS 0 tI).1 = p ∧ (runLoop A p trainS testS 0 tI).2 = [] :=
  ⟨rfl, rfl⟩

/-- C10: the NaN-to-zero substitution applied to a per-rank pooled vector is
idempotent: applying it twice gives the same vector as applying it once. -/
theorem nan_substitution_idempotent (v : List (Option ℚ)) :
    nanToZero (nanToZero v) = nanToZero v := by
  induction v with
  | nil => rfl
  | cons o t ih =>
      cases o <;> simp [nanToZero] at ih ⊢ <;> exact ih

/-- C4: in `CCXN.forward`, if the rank-2 output of the layer stack is empty
for a sample (a cell complex with zero faces), the `nanmean` over that empty
dimension is NaN in every class channel, zero is substituted in its place, and
the empty rank therefore contributes the zero vector: the returned output
equals the sum of the two remaining per-rank pooled vectors, with no error. -/
theorem ccxn_empty_rank_contributes_zero (m : CCXNModel) (x0 x1 adj inc2t : Mat)
    (_hl : m.layers ≠ [])
    (h2 : (ccxnLayersOut m.layers x0 x1 [] adj inc2t).2.2 = []) :
    ccxnPool m.numClasses m.lin2 (ccxnLayersOut m.layers x0 x1 [] adj inc2t).2.2
      = List.replicate m.numClasses (some 0)
    ∧ ccxnForward m x0 x1 adj inc2t
      = optVecAdd (ccxnPool m.numClasses m.lin1 (ccxnLayersOut m.layers x0 x1 [] adj inc2t).2.1)
          (ccxnPool m.numClasses m.lin0 (ccxnLayersOut m.layers x0 x1 [] adj inc2t).1) := by
  have hnil : ccxnPool m.numClasses m.lin2 (ccxnLayersOut m.layers x0 x1 [] adj inc2t).2.2
      = List.replicate m.numClasses (some 0) := by
    rw [h2]; exact ccxnPool_nil _ _
  refine ⟨hnil, ?_⟩
  unfold ccxnForward
  rw [hnil]
  refine optVecAdd_replicate_zero _ _ ?_ ?_
  · rw [optVecAdd_length, ccxnPool_length, ccxnPool_length]
    exact min_self _
  · exact optVecAdd_isSome _ _ (ccxnPool_isSome _ _ _) (ccxnPool_isSome _ _ _)

/-- C4 (witness): the statement at a concrete model whose single layer
produces an empty rank-2 output. -/
theorem ccxn_empty_rank_contributes_zero_witness :
    ccxnPool demoCCXN.numClasses demoCCXN.lin2
        (ccxnLayersOut demoCCXN.layers [[1]] [[2]] [] [[1]] []).2.2
      = List.replicate demoCCXN.numClasses (some 0)
    ∧ ccxnForward demoCCXN [[1]] [[2]] [[1]] []
      = optVecAdd (ccxnPool demoCCXN.numClasses demoCCXN.lin1
            (ccxnLayersOut demoCCXN.layers [[1]] [[2]] [] [[1]] []).2.1)
          (ccxnPool demoCCXN.numClasses demoCCXN.lin0
            (ccxnLayersOut demoCCXN.layers [[1]] [[2]] [] [[1]] []).1) :=
  ccxn_empty_rank_contributes_zero demoCCXN [[1]] [[2]] [[1]] [] (by simp [demoCCXN]) rfl

/-- Setting the CCXN training-mode flag, as `model.train()` does. -/
def ccxnSetMode (m : CCXNModel) (b : Bool) : CCXNModel := { m with training := b }

/-- Setting the HSN training-mode flag. -/
def hsnSetMode (m : HSNModel) (b : Bool) : HSNModel := { m with training := b }

/-- Setting the template-model training-mode flag. -/
def templateSetMode (m : TemplateModel) (b : Bool) : TemplateModel := { m with training := b }

/-- C8: for all three notebook models, the forward pass is independent of the
train/eval mode flag: with the same (frozen) parameters and inputs, the
training-mode and evaluation-mode forward passes produce identical
predictions. -/
theorem forward_mode_independent :
    (∀ (m : CCXNModel) (b b' : Bool) (x0 x1 adj inc2t : Mat),
        ccxnForward (ccxnSetMode m b) x0 x1 adj inc2t = ccxnForward (ccxnSetMode m b') x0 x1 adj inc2t)
    ∧ (∀ (σ : ℚ → ℚ) (m : HSNModel) (b b' : Bool) (x0 inc adj : Mat),
        hsnForward σ (hsnSetMode m b) x0 inc adj = hsnForward σ (hsnSetMode m b') x0 inc adj)
    ∧ (∀ (σ : ℚ → ℚ) (m : TemplateModel) (b b' : Bool) (x1 inc : Mat),
        templateForward σ (templateSetMode m b) x1 inc = templateForward σ (templateSetMode m b') x1 inc) :=
  ⟨fun _ _ _ _ _ _ _ => rfl, fun _ _ _ _ _ _ _ => rfl, fun _ _ _ _ _ _ => rfl⟩

theorem runEpoch_losses {P S : Type} (A : TrainAlg P S) (p : P) (l : List S) :
    (runEpoch A p l).2.1 = lossTrace A p l := by
  induction l generalizing p with
  | nil => rfl
  | cons s t ih => simp [runEpoch, lossTrace, ih]

theorem runEpoch_correct {P S : Type} (A : TrainAlg P S) (p : P) (l : List S) :
    (runEpoch A p l).2.2.1 = correctTrace A p l := by
  induction l generalizing p with
  | nil => rfl
  | cons s t ih => simp [runEpoch, correctTrace, ih]

theorem runEpoch_count {P S : Type} (A : TrainAlg P S) (p : P) (l : List S) :
    (runEpoch A p l).2.2.2 = l.length := by
  induction l generalizing p with
  | nil => rfl
  | cons s t ih => simp [runEpoch, ih, Nat.add_comm]

theorem paramsAfter_shift {P S : Type} (A : TrainAlg P S) (p : P) (tr : List S) (k : ℕ) :
    paramsAfter A p tr (k + 1) = paramsAfter A ((runEpoch A p tr).1) tr k := by
  induction k with
  | zero => rfl
  | succ n ih =>
      rw [paramsAfter, ih]
      rfl

theorem runFrom_params {P S : Type} (A : TrainAlg P S) (tr te : List S) (tI : ℕ) :
    ∀ (k e : ℕ) (p : P), (runFrom A tr te tI p e k).1 = paramsAfter A p tr k := by
  intro k
  induction k with
  | zero => intro e p; rfl
  | succ n ih =>
      intro e p
      rw [runFrom, ih, ← paramsAfter_shift]

theorem runFrom_epochs {P S : Type} (A : TrainAlg P S) (tr te : List S) (tI : ℕ) :
    ∀ (k e : ℕ) (p : P),
      (runFrom A tr te tI p e k).2.map (fun m => m.epoch) = List.range' e k := by
  intro k
  induction k with
  | zero => intro e p; rfl
  | succ n ih =>
      intro e p
      rw [runFrom, List.range'_succ]
      simp [ih]

theorem runFrom_mem_spec {P S : Type} (A : TrainAlg P S) (tr te : List S) (tI : ℕ) :
    ∀ (k e : ℕ) (p : P) (m : EpochMetric), m ∈ (runFrom A tr te tI p e k).2 →
      ∃ j, j < k ∧ m.epoch = e + j
        ∧ m.meanLoss = npMean (lossTrace A (paramsAfter A p tr j) tr)
        ∧ m.trainAcc = ((correctTrace A (paramsAfter A p tr j) tr : ℚ) / (tr.length : ℚ))
        ∧ m.testAcc = (if m.epoch % tI = 0
            then some (evalAcc A (paramsAfter A p tr (j + 1)) te) else none) := by
  intro k
  induction k with
  | zero => intro e p m hm; simp [runFrom] at hm
  | succ n ih =>
      intro e p m hm
      rw [runFrom, List.mem_cons] at hm
      rcases hm with h | h
      · refine ⟨0, Nat.succ_pos n, ?_, ?_, ?_, ?_⟩ <;> subst h
        · rfl
        · simp [paramsAfter, runEpoch_losses]
        · simp [paramsAfter, runEpoch_correct, runEpoch_count]
        · simp [paramsAfter]
      · obtain ⟨j, hj, he, hml, hta, hte⟩ := ih (e + 1) ((runEpoch A p tr).1) m h
        refine ⟨j + 1, by omega, by omega, ?_, ?_, ?_⟩
        · rw [paramsAfter_shift]; exact hml
        · rw [paramsAfter_shift]; exact hta
        · rw [paramsAfter_shift]; exact hte

/-- C6 (counterexample): the HSN notebook's evaluation pass does not apply the
same correctness-check logic as its training pass: at the output row
`[3/4, 3/4]` with label row `[1, 1]`, the training check (thresholded row
versus raw output row) is `false` while the evaluation check (second sigmoid,
`≥ 1/2` threshold, comparison against the label row) is `true`. -/
theorem hsn_eval_check_differs_from_train :
    hsnTrainRowCheck [3/4, 3/4] = false
    ∧ hsnTestRowCheck squash [3/4, 3/4] [1, 1] = true := by
  constructor
  · norm_num [hsnTrainRowCheck, rowEqAll, hsnGtDecision]
  · norm_num [hsnTestRowCheck, rowEqAll, hsnGeDecision, squash]
    all_goals positivity

/-- C6 (amended): for every training algorithm and every positive test
interval, the loop runs an evaluation pass after epoch `e` exactly when
`e % test_interval == 0`; the evaluation pass reports
correct / total over the test samples in fixed order using the loop's
correctness check and performs no parameter update — the final parameters of
the interleaved loop equal those of a pure training loop. (In the CCXN and
template notebooks the evaluation pass applies the same forward and
correctness-check logic as training; in the HSN notebook the evaluation
check differs from the training check.) -/
theorem loop_eval_schedule_and_frame {P S : Type} (A : TrainAlg P S) (p : P)
    (trainS testS : List S) (numEpochs tI : ℕ) (_hT : 0 < tI) :
    (runLoop A p trainS testS numEpochs tI).1 = paramsAfter A p trainS numEpochs
    ∧ (runLoop A p trainS testS numEpochs tI).2.map (fun m => m.epoch) = List.range' 1 numEpochs
    ∧ ∀ m ∈ (runLoop A p trainS testS numEpochs tI).2,
        m.testAcc = if m.epoch % tI = 0
          then some (evalAcc A (paramsAfter A p trainS m.epoch) testS) else none := by
  refine ⟨runFrom_params A trainS testS tI numEpochs 1 p,
    runFrom_epochs A trainS testS tI numEpochs 1 p, ?_⟩
  intro m hm
  obtain ⟨j, hj, he, -, -, hte⟩ := runFrom_mem_spec A trainS testS tI numEpochs 1 p m hm
  rw [hte, show j + 1 = m.epoch by omega]

/-- C6 (witness): the amended statement at a concrete algorithm and inputs. -/
theorem loop_eval_schedule_and_frame_witness :
    (runLoop demoAlg 0 [1, 2] [3] 2 1).1 = paramsAfter demoAlg 0 [1, 2] 2
    ∧ (runLoop demoAlg 0 [1, 2] [3] 2 1).2.map (fun m => m.epoch) = List.range' 1 2
    ∧ ∀ m ∈ (runLoop demoAlg 0 [1, 2] [3] 2 1).2,
        m.testAcc = if m.epoch % 1 = 0
          then some (evalAcc demoAlg (paramsAfter demoAlg 0 [1, 2] m.epoch) [3]) else none :=
  loop_eval_schedule_and_frame demoAlg 0 [1, 2] [3] 2 1 (by decide)

/-- C7: every reported per-epoch metric line carries as its loss the
arithmetic mean (`np.mean`) of the per-sample scalar losses recorded during
that epoch, and as its training accuracy the ratio correct / total of samples
processed; and for recorded losses `[1, 2, 3]` the reported mean is `2`. -/
theorem epoch_reports_mean_loss_and_acc :
    (∀ (P S : Type) (A : TrainAlg P S) (p : P) (trainS testS : List S) (numEpochs tI : ℕ)
        (m : EpochMetric), 0 < tI → m ∈ (runLoop A p trainS testS numEpochs tI).2 →
        m.meanLoss = npMean (lossTrace A (paramsAfter A p trainS (m.epoch - 1)) trainS)
        ∧ m.trainAcc = ((correctTrace A (paramsAfter A p trainS (m.epoch - 1)) trainS : ℚ)
            / (trainS.length : ℚ)))
    ∧ npMean [1, 2, 3] = 2 := by
  constructor
  · intro P S A p trainS testS numEpochs tI m _hT hm
    obtain ⟨j, hj, he, hml, hta, -⟩ := runFrom_mem_spec A trainS testS tI numEpochs 1 p m hm
    rw [show m.epoch - 1 = j by omega]
    exact ⟨hml, hta⟩
  · norm_num [npMean]

/-- C7 (witness): the first epoch metric of a concrete run satisfies the
reported-mean-loss and reported-accuracy equations. -/
theorem epoch_reports_mean_loss_and_acc_witness :
    (⟨1, 1, 0, some 1⟩ : EpochMetric).meanLoss
      = npMean (lossTrace demoAlg
          (paramsAfter demoAlg 0 [1, 2] ((⟨1, 1, 0, some 1⟩ : EpochMetric).epoch - 1)) [1, 2])
    ∧ (⟨1, 1, 0, some 1⟩ : EpochMetric).trainAcc
      = ((correctTrace demoAlg
            (paramsAfter demoAlg 0 [1, 2] ((⟨1, 1, 0, some 1⟩ : EpochMetric).epoch - 1)) [1, 2] : ℚ)
          / (([1, 2] : List ℚ).length : ℚ)) :=
  epoch_reports_mean_loss_and_acc.1 ℚ ℚ demoAlg 0 [1, 2] [3] 1 1 ⟨1, 1, 0, some 1⟩ (by decide)
    (by norm_num [runLoop, runFrom, runEpoch, evalAcc, evalCounts, npMean, demoAlg])

theorem boolMean_all_false (l : List Bool) (h : ∀ b ∈ l, b = false) : boolMean l = 0 := by
  unfold boolMean
  have hf : l.filter (fun b => b) = [] := by
    rw [List.filter_eq_nil_iff]
    intro b hb
    simp [h b hb]
  rw [hf]
  simp

theorem gtDecision_ne (x : ℚ) (h1 : 0 < x) (h2 : x < 1) : hsnGtDecision x ≠ x := by
  unfold hsnGtDecision
  split
  · intro he
    exact (ne_of_lt h2) he.symm
  · intro he
    exact (ne_of_lt h1) he

theorem hsnTrainRow_false (a b : ℚ) (ha1 : 0 < a) (ha2 : a < 1) :
    hsnTrainRowCheck [a, b] = false := by
  have h1 : decide (hsnGtDecision a = a) = false := decide_eq_false (gtDecision_ne a ha1 ha2)
  simp [hsnTrainRowCheck, rowEqAll, h1]

theorem zipWith_pred_self_false (l : Mat) (h : ∀ r ∈ l, hsnTrainRowCheck r = false) :
    ∀ b ∈ List.zipWith rowEqAll (hsnYPred l) l, b = false := by
  induction l with
  | nil => simp [hsnYPred]
  | cons r t ih =>
      intro b hb
      simp only [hsnYPred, List.map_cons, List.zipWith_cons_cons, List.mem_cons] at hb
      rcases hb with hb | hb
      · rw [hb]
        exact h r (by simp)
      · exact ih (fun r2 hr2 => h r2 (by simp [hr2])) b (by simpa [hsnYPred] using hb)

theorem zipWith_ones_labels_false (l t : Mat) (hl : ∀ r ∈ l, r = [1, 1])
    (ht : ∀ s ∈ t, s = [1, 0] ∨ s = [0, 1]) :
    ∀ b ∈ List.zipWith rowEqAll l t, b = false := by
  induction l generalizing t with
  | nil => simp
  | cons r l2 ih =>
      cases t with
      | nil => simp
      | cons s t2 =>
          intro b hb
          rw [List.zipWith_cons_cons, List.mem_cons] at hb
          rcases hb with hb | hb
          · rw [hb, hl r (by simp)]
            rcases ht s (by simp) with h | h <;> rw [h] <;> norm_num [rowEqAll]
          · exact ih t2 (fun r2 hr2 => hl r2 (by simp [hr2]))
              (fun s2 hs2 => ht s2 (by simp [hs2])) b hb

/-- C5: for every parameter setting of the HSN model and every function with
the exact-real sigmoid's order properties (values strictly between 0 and 1,
above 1/2 on positive inputs), the reported training accuracy is exactly 0 —
the training check compares the thresholded prediction row (entries in {0,1})
with the raw sigmoid output row (entries strictly inside (0,1)), so no row
ever matches — and the reported test accuracy is exactly 0 — the test pass
applies a second sigmoid to the already-sigmoided output, so every thresholded
row is all ones and never equals a one-hot label row. -/
theorem hsn_accuracies_always_zero (σ : ℚ → ℚ) (m : HSNModel) (x0 inc adj : Mat)
    (hσ1 : ∀ x, 0 < σ x) (hσ2 : ∀ x, σ x < 1) (hσ3 : ∀ x, 0 < x → 1/2 < σ x)
    (_hlen : 4 ≤ (hsnApplyLayers m.layers x0 inc adj).length) :
    hsnTrainAccOf (hsnForward σ m x0 inc adj) = 0
    ∧ hsnTestAcc σ (hsnForward σ m x0 inc adj) = 0 := by
  constructor
  · apply boolMean_all_false
    apply zipWith_pred_self_false
    intro r hr
    rw [hsnForward, List.mem_map] at hr
    obtain ⟨row, -, hrow⟩ := hr
    rw [← hrow]
    simp only [lin2Apply, List.map_cons, List.map_nil]
    exact hsnTrainRow_false _ _ (hσ1 _) (hσ2 _)
  · apply boolMean_all_false
    apply zipWith_ones_labels_false
    · intro r hr
      have hr2 : r ∈ hsnYPredTest σ (hsnForward σ m x0 inc adj) := List.take_subset _ _ hr
      rw [hsnYPredTest, List.mem_map] at hr2
      obtain ⟨row0, hrow0mem, hrow0⟩ := hr2
      rw [hsnForward, List.mem_map] at hrow0mem
      obtain ⟨rr, -, hrr⟩ := hrow0mem
      rw [← hrow0, ← hrr]
      simp only [lin2Apply, List.map_cons, List.map_nil]
      have hone : ∀ y : ℚ, hsnGeDecision (σ (σ y)) = 1 := fun y => by
        unfold hsnGeDecision
        rw [if_pos (le_of_lt (hσ3 (σ y) (hσ1 y)))]
      simp [hone]
    · intro s hs
      have hy : hsnYTest = [[1, 0], [1, 0], [1, 0], [1, 0]] := by
        norm_num [hsnYTest, hsnYTrue, hsnY, hsnSplitTest]
      rw [hy] at hs
      simp only [List.mem_cons, List.not_mem_nil, or_false] at hs
      rcases hs with h | h | h | h <;> exact Or.inl h

/-- C5 (witness): the statement at the concrete squashing function, a concrete
HSN model and concrete four-row node features. -/
theorem hsn_accuracies_always_zero_witness :
    hsnTrainAccOf (hsnForward squash demoHSN demoX0 [] []) = 0
    ∧ hsnTestAcc squash (hsnForward squash demoHSN demoX0 [] []) = 0 :=
  hsn_accuracies_always_zero squash demoHSN demoX0 [] [] squash_pos squash_lt_one
    squash_gt_half (by decide)

end TopoModelX
